import Mathlib

/-!
Verification of the rlog asynchronous logging pipeline.

The definitions below are a shallow embedding of the Go sources:
the level constants and entry types of the core package, the buffered
asynchronous sink's worker loop, the rotating file writer's state
machine, the console renderer, the fan-out composite and the
constructor normalization.  Machine integers (Go int / int64) are
modelled as Int; byte lengths of strings (Go len) as utf8ByteSize;
timestamps as a record of the calendar fields the code extracts.
-/

/-- Calendar fields extracted from a Go time.Time by Date/Clock/Nanosecond. -/
structure GoTime where
  year : Nat
  month : Nat
  day : Nat
  hour : Nat
  minute : Nat
  second : Nat
  nano : Nat
deriving DecidableEq

/-- `when.Nanosecond() / 1e3`, the microsecond field printed by the file writer. -/
def GoTime.micro (t : GoTime) : Nat := t.nano / 1000

/-- `when.Nanosecond() / 1e6`, the millisecond field printed by the console writer. -/
def GoTime.milli (t : GoTime) : Nat := t.nano / 1000000

/-- The zero value of time.Time, as carried by sentinel queue entries. -/
def GoTime.zero : GoTime := ⟨0, 0, 0, 0, 0, 0, 0⟩

/-- Width of the output of fmt's zero-padded integer verb (%0wd) on n ≥ 0. -/
def padLen (w n : Nat) : Nat := max w (toString n).length

/-- Rendered text of fmt's zero-padded integer verb (%0wd) on n ≥ 0. -/
def padNum (w n : Nat) : String :=
  String.mk (List.replicate (w - (toString n).length) '0') ++ toString n

/-- A time whose fields all fit the printf widths used by the writers. -/
def GoTime.valid (t : GoTime) : Prop :=
  padLen 4 t.year = 4 ∧ padLen 2 t.month = 2 ∧ padLen 2 t.day = 2 ∧
  padLen 2 t.hour = 2 ∧ padLen 2 t.minute = 2 ∧ padLen 2 t.second = 2 ∧
  padLen 6 t.micro = 6 ∧ padLen 3 t.milli = 3

instance (t : GoTime) : Decidable t.valid := by
  unfold GoTime.valid; infer_instance

/-! ## Levels (core package constants) -/

def closeLevel : Int := -2
def flushLevel : Int := -1
def Debug : Int := 0
def Info : Int := 1
def Audit : Int := 2
def Warn : Int := 3
def Error : Int := 4

/-- The level-name table shared by the console and file writers. -/
def levelNames : List String := ["DEBUG", "INFO ", "AUDIT", "WARN ", "ERROR"]

/-! ## Buffered async sink

The bounded channel is modelled as the FIFO sequence of entries the
worker receives; the worker's select loop is modelled as a function
from the sequence of select outcomes (queue entry or ticker tick) to
the sequence of calls it makes on the downstream sink. -/

/-- A queue entry of the buffered sink (bufEntry in the source);
the acknowledgment channel is identified by a Nat. -/
structure bufEntry where
  when : GoTime
  level : Int
  message : String
  ack : Option Nat
deriving DecidableEq

/-- One outcome of the worker's select: a queue entry or a ticker tick. -/
inductive WorkerInput where
  | entry (e : bufEntry)
  | tick
deriving DecidableEq

/-- A call made by the worker on the downstream sink, or the closing of
an acknowledgment channel. -/
inductive DownEvent where
  | log (when : GoTime) (level : Int) (message : String)
  | flush
  | ackClose (a : Nat)
  | close
deriving DecidableEq

/-- The worker loop of NewBufferedSink: dequeue an entry (or take a tick),
dispatch on the sentinel levels, terminate on the close sentinel. -/
def runWorker : List WorkerInput → List DownEvent
  | [] => []
  | .tick :: rest => DownEvent.flush :: runWorker rest
  | .entry e :: rest =>
    if e.level = closeLevel then [DownEvent.close]
    else if e.level = flushLevel then
      (DownEvent.flush :: (match e.ack with
        | some a => [DownEvent.ackClose a]
        | none => [])) ++ runWorker rest
    else DownEvent.log e.when e.level e.message :: runWorker rest

/-- The subsequence of queue entries among the worker's select outcomes. -/
def entriesOf : List WorkerInput → List bufEntry
  | [] => []
  | .entry e :: rest => e :: entriesOf rest
  | .tick :: rest => entriesOf rest

/-- The entry enqueued by BufferedSink.Log. -/
def BufferedSink.logEntry (when : GoTime) (level : Int) (message : String) : bufEntry :=
  ⟨when, level, message, none⟩

/-- The entry enqueued by BufferedSink.Flush, carrying a fresh ack channel. -/
def BufferedSink.flushEntry (a : Nat) : bufEntry :=
  ⟨GoTime.zero, flushLevel, "", some a⟩

/-- The entry enqueued by BufferedSink.Close. -/
def BufferedSink.closeEntry : bufEntry :=
  ⟨GoTime.zero, closeLevel, "", none⟩

/-- The downstream calls the worker makes for one dequeued entry. -/
def entryEvents (e : bufEntry) : List DownEvent :=
  if e.level = closeLevel then [DownEvent.close]
  else if e.level = flushLevel then
    DownEvent.flush :: (match e.ack with
      | some a => [DownEvent.ackClose a]
      | none => [])
  else [DownEvent.log e.when e.level e.message]

/-- Downstream calls for a whole sequence of dequeued entries, in order. -/
def eventsOfEntries : List bufEntry → List DownEvent
  | [] => []
  | e :: rest => entryEvents e ++ eventsOfEntries rest

/-! ## Rotating file writer

The file system is modelled by the sequence of active-file
incarnations: each successful open (append-mode lazy open or
truncating post-rotation reopen) starts a new incarnation, and each
writeFileLine appends one record to the current (head) incarnation.
Incarnations are listed most recent first.  The bufio layer is
transparent: a record counts as written to the file once handed to
the buffered writer.  I/O outcomes the code branches on (open
errors, Stat results) are supplied by a per-call environment. -/

/-- One record as handed to writeFileLine. -/
structure FileRec where
  when : GoTime
  level : Nat
  message : String
deriving DecidableEq

/-- The rotating file writer's state: configuration fields, whether a
file handle is open (fp and fileWriter non-nil), the size counter, and
the modelled file contents. -/
structure FWState where
  maxFileSize : Int
  maxLogFiles : Nat
  filename : String
  isOpen : Bool
  fileSize : Int
  files : List (List FileRec)
deriving DecidableEq

/-- Per-call I/O environment: result of a lazy open, of Stat (none
models a Stat error), of a post-rotation reopen, plus time.Now() and
os.Getpid() as read inside FileWriter.Log. -/
structure LogEnv where
  openOk : Bool
  statSize : Option Nat
  reopenOk : Bool
  now : GoTime
  pid : Nat
deriving DecidableEq

/-- Level tag looked up in levelNames.  The source indexes the table
directly; all uses below are at levels 0..4, where the lookup is the
plain table entry. -/
def levelName (level : Nat) : String := levelNames.getD level ""

/-- Byte count written by the file writer's Fprintf for one record:
"%04d-%02d-%02d %02d:%02d:%02d.%06d %s %s\n" over the date and clock
fields, the level tag and the message. -/
def lineLen (t : GoTime) (level : Nat) (msg : String) : Nat :=
  padLen 4 t.year + 1 + padLen 2 t.month + 1 + padLen 2 t.day + 1 +
  padLen 2 t.hour + 1 + padLen 2 t.minute + 1 + padLen 2 t.second + 1 +
  padLen 6 t.micro + 1 + (levelName level).length + 1 + msg.utf8ByteSize + 1

/-- Append a record to the current (head) incarnation. -/
def appendCurrent (files : List (List FileRec)) (r : FileRec) : List (List FileRec) :=
  match files with
  | [] => []
  | f :: rest => (f ++ [r]) :: rest

/-- FileWriter.writeFileLine: if a buffered writer exists, format the
record, append it and add the written byte count to the size counter. -/
def FileWriter.writeFileLine (t : GoTime) (level : Nat) (msg : String) (st : FWState) : FWState :=
  if st.isOpen then
    { st with fileSize := st.fileSize + (lineLen t level msg : Int),
              files := appendCurrent st.files ⟨t, level, msg⟩ }
  else st

/-- The start-of-session marker message "Start %s pid: %v". -/
def sepMsg (filename : String) (pid : Nat) : String :=
  "Start " ++ filename ++ " pid: " ++ toString pid

/-- The start-of-session marker record, written at Audit level with
time.Now(). -/
def sepRec (env : LogEnv) (filename : String) : FileRec :=
  ⟨env.now, 2, sepMsg filename env.pid⟩

/-- The second half of FileWriter.Log: the rotation check against
fileSize + len(message) + 33, the backup renames and truncating
reopen when it fires, then the write of the pending record. -/
def FileWriter.logBody (env : LogEnv) (t : GoTime) (level : Nat) (msg : String)
    (st : FWState) : FWState :=
  if st.fileSize + (msg.utf8ByteSize : Int) + 33 > st.maxFileSize then
    if env.reopenOk then
      FileWriter.writeFileLine t level msg
        { st with fileSize := 0, files := [] :: st.files }
    else
      { st with isOpen := false, fileSize := 0 }
  else
    FileWriter.writeFileLine t level msg st

/-- FileWriter.Log: lazy append-mode open on a nil handle (a failed
open drops the record and returns), Stat for the initial size counter,
the session marker, then the rotation check and the record write. -/
def FileWriter.Log (env : LogEnv) (t : GoTime) (level : Nat) (msg : String)
    (st : FWState) : FWState :=
  if st.isOpen then
    FileWriter.logBody env t level msg st
  else if env.openOk then
    let opened : FWState :=
      { st with isOpen := true,
                fileSize := ((env.statSize.getD 0 : Nat) : Int),
                files := [] :: st.files }
    FileWriter.logBody env t level msg
      (FileWriter.writeFileLine env.now 2 (sepMsg st.filename env.pid) opened)
  else st

/-- Go's path.Base. -/
def pathBase (p : String) : String :=
  if p = "" then "." else
  let stripped := (p.toList.reverse.dropWhile (fun c => c = '/')).reverse
  let base := (stripped.reverse.takeWhile (fun c => c ≠ '/')).reverse
  if base = [] then "/" else String.mk base

/-- Go's strings.TrimSuffix: drop the suffix when present. -/
def goTrimSuffix (s suf : String) : String :=
  if suf.data.isSuffixOf s.data then
    String.mk (s.data.take (s.data.length - suf.data.length))
  else s

/-- NewFileWriter: derive the file name from os.Args[0] when empty,
replace a zero maxSize by 1e9, and fix the log-file count at 3. -/
def NewFileWriter (argv0 : String) (filename : String) (maxSize : Int) : FWState :=
  let fn := if filename = "" then
      goTrimSuffix (goTrimSuffix (pathBase argv0) ".bin") ".app"
    else filename
  let ms := if maxSize = 0 then 1000000000 else maxSize
  { filename := fn, maxFileSize := ms, maxLogFiles := 3,
    isOpen := false, fileSize := 0, files := [] }

/-! ## Console renderer -/

/-- ConsoleWriter: minimum level and terminal detection result. -/
structure ConsoleWriter where
  minLevel : Int
  isTerminal : Bool
deriving DecidableEq

/-- Outcome of one ConsoleWriter.Log call: filtered out, one line
printed to stdout, or a runtime panic (out-of-range table index). -/
inductive ConsoleOut where
  | skipped
  | printed (line : String)
  | panicked
deriving DecidableEq

/-- The body printed by the console writer:
"%02d:%02d:%02d.%03d %s %s\n" over clock fields, level tag, message. -/
def consoleBody (t : GoTime) (tag : String) (msg : String) : String :=
  padNum 2 t.hour ++ ":" ++ padNum 2 t.minute ++ ":" ++ padNum 2 t.second ++
  "." ++ padNum 3 t.milli ++ " " ++ tag ++ " " ++ msg ++ "\n"

/-- The printed line, wrapped in the 256-color escape when color > 0. -/
def consoleRender (color : Nat) (t : GoTime) (tag : String) (msg : String) : String :=
  if color > 0 then
    "\x1b[38;5;" ++ toString color ++ "m" ++ consoleBody t tag msg ++ "\x1b[m"
  else consoleBody t tag msg

/-- ConsoleWriter.Log: filter below minLevel; look up the level tag
only when level < len(levelNames) (a negative level would index out of
range and panic); colorize Warn and Error when on a terminal. -/
def ConsoleWriter.Log (cw : ConsoleWriter) (t : GoTime) (level : Int) (msg : String) :
    ConsoleOut :=
  if level < cw.minLevel then ConsoleOut.skipped
  else if level < (levelNames.length : Int) then
    if level < 0 then ConsoleOut.panicked
    else
      let tag := levelNames.getD level.toNat ""
      let color : Nat :=
        if cw.isTerminal then (if level ≥ Error then 167 else if level ≥ Warn then 173 else 0)
        else 0
      ConsoleOut.printed (consoleRender color t tag msg)
  else
    let color : Nat :=
      if cw.isTerminal then (if level ≥ Error then 167 else if level ≥ Warn then 173 else 0)
      else 0
    ConsoleOut.printed (consoleRender color t "" msg)

/-! ## Fan-out composite

A child sink is abstracted as a state type with the four methods;
deliver/flush/close also return the I/O events the child performs, so
that the order of the composite's calls is observable. -/

/-- An abstract child sink: IsEnabled is pure; the other methods
update the child state and emit the child's own I/O events. -/
structure SinkModel (σ : Type) (ε : Type) where
  isEnabled : σ → Int → Bool
  log : σ → GoTime → Int → String → σ × List ε
  flush : σ → σ × List ε
  close : σ → σ × List ε

/-- MultiWriter over two abstract children. -/
structure MultiWriter (σ₁ σ₂ ε : Type) where
  first : SinkModel σ₁ ε
  second : SinkModel σ₂ ε

/-- MultiWriter.IsEnabled: the disjunction of the children. -/
def MultiWriter.IsEnabled (mw : MultiWriter σ₁ σ₂ ε) (st : σ₁ × σ₂) (level : Int) : Bool :=
  mw.first.isEnabled st.1 level || mw.second.isEnabled st.2 level

/-- MultiWriter.Log: first child's Log, then second child's Log. -/
def MultiWriter.Log (mw : MultiWriter σ₁ σ₂ ε) (st : σ₁ × σ₂)
    (t : GoTime) (level : Int) (msg : String) : (σ₁ × σ₂) × List ε :=
  let r1 := mw.first.log st.1 t level msg
  let r2 := mw.second.log st.2 t level msg
  ((r1.1, r2.1), r1.2 ++ r2.2)

/-- MultiWriter.Close: first child's Close, then second child's Close. -/
def MultiWriter.Close (mw : MultiWriter σ₁ σ₂ ε) (st : σ₁ × σ₂) : (σ₁ × σ₂) × List ε :=
  let r1 := mw.first.close st.1
  let r2 := mw.second.close st.2
  ((r1.1, r2.1), r1.2 ++ r2.2)

/-- MultiWriter.Flush: first child's Flush, then second child's Flush. -/
def MultiWriter.Flush (mw : MultiWriter σ₁ σ₂ ε) (st : σ₁ × σ₂) : (σ₁ × σ₂) × List ε :=
  let r1 := mw.first.flush st.1
  let r2 := mw.second.flush st.2
  ((r1.1, r2.1), r1.2 ++ r2.2)

/-! ## Buffered async sink: theorems -/

lemma entriesOf_map_entry (entries : List bufEntry) :
    entriesOf (entries.map WorkerInput.entry) = entries := by
  induction entries with
  | nil => rfl
  | cons e rest ih => simp [entriesOf, ih]

lemma runWorker_map_entry_eq (entries : List bufEntry)
    (h : ∀ e ∈ entries, e.level ≠ closeLevel) :
    runWorker (entries.map WorkerInput.entry) = eventsOfEntries entries := by
  induction entries with
  | nil => rfl
  | cons e rest ih =>
    have he : e.level ≠ closeLevel := h e (List.mem_cons_self e rest)
    have hrest : ∀ x ∈ rest, x.level ≠ closeLevel :=
      fun x hx => h x (List.mem_cons_of_mem e hx)
    by_cases hf : e.level = flushLevel
    · simp [runWorker, eventsOfEntries, entryEvents, he, hf, flushLevel, closeLevel, ih hrest]
    · simp [runWorker, eventsOfEntries, entryEvents, he, hf, ih hrest]

lemma runWorker_close_append (inputs rest : List WorkerInput)
    (h : ∀ e ∈ entriesOf inputs, e.level ≠ closeLevel) :
    runWorker (inputs ++ WorkerInput.entry BufferedSink.closeEntry :: rest) =
      runWorker inputs ++ [DownEvent.close] := by
  induction inputs with
  | nil => simp [runWorker, BufferedSink.closeEntry]
  | cons i tl ih =>
    cases i with
    | tick =>
      have := ih (fun e he => h e (by simpa [entriesOf] using he))
      simp [runWorker, this]
    | entry e =>
      have he : e.level ≠ closeLevel := h e (by simp [entriesOf])
      have htl := ih (fun x hx => h x (by simp [entriesOf, hx]))
      by_cases hf : e.level = flushLevel
      · simp [runWorker, he, hf, flushLevel, closeLevel, htl]
      · simp [runWorker, he, hf, htl]

lemma close_notMem_runWorker (inputs : List WorkerInput)
    (h : ∀ e ∈ entriesOf inputs, e.level ≠ closeLevel) :
    DownEvent.close ∉ runWorker inputs := by
  induction inputs with
  | nil => simp [runWorker]
  | cons i tl ih =>
    cases i with
    | tick =>
      have := ih (fun e he => h e (by simpa [entriesOf] using he))
      simp [runWorker, this]
    | entry e =>
      have he : e.level ≠ closeLevel := h e (by simp [entriesOf])
      have htl := ih (fun x hx => h x (by simp [entriesOf, hx]))
      by_cases hf : e.level = flushLevel
      · cases ha : e.ack with
        | some a => simp [runWorker, he, hf, ha, flushLevel, closeLevel, htl]
        | none => simp [runWorker, he, hf, ha, flushLevel, closeLevel, htl]
      · simp [runWorker, he, hf, htl]

/-- C2: all records and control sentinels enqueued into a buffered
async sink are observed by the downstream sink in exactly enqueue
order: draining a queue free of close sentinels produces precisely the
per-entry downstream calls concatenated in FIFO order, and a close
sentinel after them ends the trace with the downstream Close, ignoring
anything enqueued later. -/
theorem bufferedSink_fifo_order (entries rest : List bufEntry)
    (h : ∀ e ∈ entries, e.level ≠ closeLevel) :
    runWorker (entries.map WorkerInput.entry) = eventsOfEntries entries ∧
    runWorker ((entries ++ BufferedSink.closeEntry :: rest).map WorkerInput.entry) =
      eventsOfEntries entries ++ [DownEvent.close] := by
  refine ⟨runWorker_map_entry_eq entries h, ?_⟩
  rw [List.map_append, List.map_cons,
    runWorker_close_append _ _ (by rw [entriesOf_map_entry]; exact h),
    runWorker_map_entry_eq entries h]

/-- C2 witness: two records followed by a close sentinel are delivered
downstream in exactly their enqueue order. -/
theorem bufferedSink_fifo_order_witness :
    runWorker ([BufferedSink.logEntry GoTime.zero 1 "a",
      BufferedSink.logEntry GoTime.zero 4 "b"].map WorkerInput.entry) =
      eventsOfEntries [BufferedSink.logEntry GoTime.zero 1 "a",
        BufferedSink.logEntry GoTime.zero 4 "b"] ∧
    runWorker (([BufferedSink.logEntry GoTime.zero 1 "a",
      BufferedSink.logEntry GoTime.zero 4 "b"] ++
        BufferedSink.closeEntry :: []).map WorkerInput.entry) =
      eventsOfEntries [BufferedSink.logEntry GoTime.zero 1 "a",
        BufferedSink.logEntry GoTime.zero 4 "b"] ++ [DownEvent.close] :=
  bufferedSink_fifo_order _ [] (by decide)

/-- C1: flush completeness.  If the queue entries seen by the worker
are some records followed by the flush sentinel enqueued by Flush
(then anything else), the worker's trace reaches the downstream Flush
call immediately followed by the closing of that sentinel's
acknowledgment channel, and every one of the records has already been
passed to the downstream Log, in order, before that point. -/
theorem bufferedSink_flush_completeness (inputs : List WorkerInput)
    (recs : List bufEntry) (a : Nat) (rest : List bufEntry)
    (h : entriesOf inputs = recs ++ BufferedSink.flushEntry a :: rest)
    (hr : ∀ e ∈ recs, e.level ≠ closeLevel ∧ e.level ≠ flushLevel) :
    ∃ pre post, runWorker inputs = pre ++ DownEvent.flush :: DownEvent.ackClose a :: post ∧
      (recs.map fun e => DownEvent.log e.when e.level e.message).Sublist pre := by
  induction inputs generalizing recs with
  | nil =>
    cases recs <;> simp [entriesOf] at h
  | cons i tl ih =>
    cases i with
    | tick =>
      obtain ⟨pre, post, heq, hsub⟩ := ih recs (by simpa [entriesOf] using h) hr
      exact ⟨DownEvent.flush :: pre, post, by simp [runWorker, heq], hsub.cons _⟩
    | entry e =>
      rw [show entriesOf (WorkerInput.entry e :: tl) = e :: entriesOf tl from rfl] at h
      cases recs with
      | nil =>
        simp only [List.nil_append, List.cons.injEq] at h
        refine ⟨[], runWorker tl, ?_, List.nil_sublist _⟩
        rw [h.1]
        simp [runWorker, BufferedSink.flushEntry, flushLevel, closeLevel]
      | cons r rs =>
        simp only [List.cons_append, List.cons.injEq] at h
        obtain ⟨hr1, hr2⟩ := hr r (List.mem_cons_self r rs)
        obtain ⟨pre, post, heq, hsub⟩ :=
          ih rs (by rw [← h.2]) (fun x hx => hr x (List.mem_cons_of_mem r hx))
        refine ⟨DownEvent.log e.when e.level e.message :: pre, post, ?_, ?_⟩
        · rw [← h.1] at hr1 hr2
          simp [runWorker, hr1, hr2, heq]
        · rw [h.1]
          exact hsub.cons₂ _

/-- C1 witness: one record, a ticker tick, then the flush sentinel. -/
theorem bufferedSink_flush_completeness_witness :
    ∃ pre post,
      runWorker [WorkerInput.entry (BufferedSink.logEntry GoTime.zero 1 "a"),
        WorkerInput.tick, WorkerInput.entry (BufferedSink.flushEntry 7)] =
        pre ++ DownEvent.flush :: DownEvent.ackClose 7 :: post ∧
      (List.map (fun e => DownEvent.log e.when e.level e.message)
        [BufferedSink.logEntry GoTime.zero 1 "a"]).Sublist pre :=
  bufferedSink_flush_completeness _ [BufferedSink.logEntry GoTime.zero 1 "a"] 7 []
    (by decide) (by decide)

/-- C7: Close enqueues the close sentinel; upon dequeuing it the worker
calls the downstream Close exactly once and terminates, so the trace
ends there and nothing enqueued afterwards produces any downstream
call; a flush sentinel, in contrast, leaves the worker looping. -/
theorem bufferedSink_close_protocol (inputs rest : List WorkerInput)
    (h : ∀ e ∈ entriesOf inputs, e.level ≠ closeLevel) :
    runWorker (inputs ++ WorkerInput.entry BufferedSink.closeEntry :: rest) =
      runWorker inputs ++ [DownEvent.close] ∧
    List.count DownEvent.close
      (runWorker (inputs ++ WorkerInput.entry BufferedSink.closeEntry :: rest)) = 1 ∧
    ∀ (a : Nat) (more : List WorkerInput),
      runWorker (WorkerInput.entry (BufferedSink.flushEntry a) :: more) =
        DownEvent.flush :: DownEvent.ackClose a :: runWorker more := by
  have h1 := runWorker_close_append inputs rest h
  refine ⟨h1, ?_, ?_⟩
  · rw [h1, List.count_append]
    rw [List.count_eq_zero.mpr (close_notMem_runWorker inputs h)]
    simp
  · intro a more
    simp [runWorker, BufferedSink.flushEntry, flushLevel, closeLevel]

/-- C7 witness: one record then the close sentinel, with a stale tick
queued behind it; and a flush sentinel that does not end the trace. -/
theorem bufferedSink_close_protocol_witness :
    runWorker ([WorkerInput.entry (BufferedSink.logEntry GoTime.zero 1 "a")] ++
        WorkerInput.entry BufferedSink.closeEntry :: [WorkerInput.tick]) =
      runWorker [WorkerInput.entry (BufferedSink.logEntry GoTime.zero 1 "a")] ++
        [DownEvent.close] ∧
    List.count DownEvent.close
      (runWorker ([WorkerInput.entry (BufferedSink.logEntry GoTime.zero 1 "a")] ++
        WorkerInput.entry BufferedSink.closeEntry :: [WorkerInput.tick])) = 1 ∧
    runWorker (WorkerInput.entry (BufferedSink.flushEntry 0) :: [WorkerInput.tick]) =
      DownEvent.flush :: DownEvent.ackClose 0 :: runWorker [WorkerInput.tick] :=
  ⟨(bufferedSink_close_protocol [WorkerInput.entry (BufferedSink.logEntry GoTime.zero 1 "a")]
      [WorkerInput.tick] (by decide)).1,
   (bufferedSink_close_protocol [WorkerInput.entry (BufferedSink.logEntry GoTime.zero 1 "a")]
      [WorkerInput.tick] (by decide)).2.1,
   (bufferedSink_close_protocol [WorkerInput.entry (BufferedSink.logEntry GoTime.zero 1 "a")]
      [WorkerInput.tick] (by decide)).2.2 0 [WorkerInput.tick]⟩

/-! ## Rotating file writer: theorems -/

lemma levelName_length (level : Nat) (h : level < 5) : (levelName level).length = 5 := by
  interval_cases level <;> rfl

lemma lineLen_eq (t : GoTime) (level : Nat) (msg : String)
    (hv : t.valid) (hl : level < 5) :
    lineLen t level msg = 34 + msg.utf8ByteSize := by
  obtain ⟨h1, h2, h3, h4, h5, h6, h7, -⟩ := hv
  unfold lineLen
  rw [h1, h2, h3, h4, h5, h6, h7, levelName_length level hl]
  omega

lemma appendCurrent_length (files : List (List FileRec)) (r : FileRec) :
    (appendCurrent files r).length = files.length := by
  cases files <;> simp [appendCurrent]

lemma FileWriter.Log_open (env : LogEnv) (t : GoTime) (level : Nat) (msg : String)
    (st : FWState) (h : st.isOpen = true) :
    FileWriter.Log env t level msg st = FileWriter.logBody env t level msg st := by
  unfold FileWriter.Log
  simp [h]

lemma FileWriter.logBody_fileSize (env : LogEnv) (t : GoTime) (level : Nat) (msg : String)
    (st : FWState) (h : st.isOpen = true) :
    (FileWriter.logBody env t level msg st).fileSize =
      if st.fileSize + (msg.utf8ByteSize : Int) + 33 > st.maxFileSize then
        (if env.reopenOk then (lineLen t level msg : Int) else 0)
      else st.fileSize + (lineLen t level msg : Int) := by
  unfold FileWriter.logBody FileWriter.writeFileLine
  split_ifs <;> simp_all

/-- C3 amended: after a successful Log on an open writer the size
counter (equally, the bytes handed to the active file) is bounded by
max (S + 1) (34 + len(msg)), not by S: the rotation check estimates
the record at len(msg) + 33 bytes while the written line is
len(msg) + 34 bytes, and an oversized record lands whole in the fresh
file after rotation. -/
theorem fileWriter_size_bound_after_log (env : LogEnv) (t : GoTime) (level : Nat)
    (msg : String) (st : FWState)
    (hopen : st.isOpen = true) (hv : t.valid) (hl : level < 5) :
    (FileWriter.Log env t level msg st).fileSize ≤
      max (st.maxFileSize + 1) (34 + (msg.utf8ByteSize : Int)) := by
  rw [FileWriter.Log_open env t level msg st hopen,
    FileWriter.logBody_fileSize env t level msg st hopen,
    lineLen_eq t level msg hv hl]
  split_ifs with htrig hre
  · refine le_trans ?_ (le_max_right _ _)
    push_cast
    omega
  · refine le_trans ?_ (le_max_right _ _)
    positivity
  · refine le_trans ?_ (le_max_left _ _)
    push_cast
    omega

/-- Concrete inputs reused by the counterexamples below. -/
def t0 : GoTime := ⟨2024, 1, 2, 3, 4, 5, 6000⟩

def env0 : LogEnv := ⟨true, some 0, true, t0, 1⟩

/-- C3 witness for the amended bound. -/
theorem fileWriter_size_bound_after_log_witness :
    (FileWriter.Log env0 t0 1 "x"
        { maxFileSize := 82, maxLogFiles := 3, filename := "a", isOpen := true,
          fileSize := 48, files := [[sepRec env0 "a"]] }).fileSize ≤
      max ((82 : Int) + 1) (34 + (("x" : String).utf8ByteSize : Int)) :=
  fileWriter_size_bound_after_log env0 t0 1 "x" _ (by decide) (by decide) (by decide)

/-- C3 counterexample: with max size 82, the session marker (48 bytes)
plus a one-byte record passes the rotation check (48 + 1 + 33 = 82 is
not > 82) yet the written line is 35 bytes, leaving the size counter at
83 > 82 right after a successful delivery. -/
theorem fileWriter_size_invariant_cex :
    (FileWriter.Log env0 t0 1 "x" (NewFileWriter "x" "a" 82)).fileSize = 83 ∧
    (NewFileWriter "x" "a" 82).maxFileSize = 82 ∧
    ¬ (FileWriter.Log env0 t0 1 "x" (NewFileWriter "x" "a" 82)).fileSize ≤
        (NewFileWriter "x" "a" 82).maxFileSize ∧
    (FileWriter.Log env0 t0 1 "x" (NewFileWriter "x" "a" 82)).files =
      [[sepRec env0 "a", ⟨t0, 1, "x"⟩]] := by
  decide

/-- C4 amended: the session separator is written only by the lazy-open
branch.  A file freshly opened by a post-rotation reopen begins
directly with the pending caller's record (no separator), while a file
freshly opened by the lazy open begins with the Audit-level separator
followed by the caller's record (when that record does not itself
trigger a rotation). -/
theorem fileWriter_separator_lazy_open_only (env : LogEnv) (t : GoTime) (level : Nat)
    (msg : String) (st : FWState) :
    (st.isOpen = true → env.reopenOk = true →
      st.fileSize + (msg.utf8ByteSize : Int) + 33 > st.maxFileSize →
      (FileWriter.Log env t level msg st).files = [⟨t, level, msg⟩] :: st.files) ∧
    (st.isOpen = false → env.openOk = true →
      ¬(((env.statSize.getD 0 : Nat) : Int) +
          (lineLen env.now 2 (sepMsg st.filename env.pid) : Int) +
          (msg.utf8ByteSize : Int) + 33 > st.maxFileSize) →
      (FileWriter.Log env t level msg st).files =
        [sepRec env st.filename, ⟨t, level, msg⟩] :: st.files) := by
  constructor
  · intro hopen hre htrig
    rw [FileWriter.Log_open env t level msg st hopen]
    unfold FileWriter.logBody FileWriter.writeFileLine
    simp [htrig, hre, hopen, appendCurrent]
  · intro hclosed hok htrig
    unfold FileWriter.Log FileWriter.logBody FileWriter.writeFileLine
    simp only [hclosed, hok, Bool.false_eq_true, if_false, if_true]
    simp only [if_true, appendCurrent, sepRec]
    simp [htrig, appendCurrent]

/-- C4 witness for the amended claim. -/
theorem fileWriter_separator_lazy_open_only_witness :
    ((FileWriter.Log env0 t0 1 "hello"
        { maxFileSize := 50, maxLogFiles := 3, filename := "a", isOpen := true,
          fileSize := 48, files := [[sepRec env0 "a"]] }).files =
      [⟨t0, 1, "hello"⟩] :: [[sepRec env0 "a"]]) ∧
    ((FileWriter.Log env0 t0 1 "x" (NewFileWriter "x" "a" 1000)).files =
      [sepRec env0 "a", ⟨t0, 1, "x"⟩] :: []) :=
  ⟨(fileWriter_separator_lazy_open_only env0 t0 1 "hello" _).1
      (by decide) (by decide) (by decide),
   (fileWriter_separator_lazy_open_only env0 t0 1 "x" (NewFileWriter "x" "a" 1000)).2
      (by decide) (by decide) (by decide)⟩

/-- C4 counterexample: delivering a record that triggers rotation
leaves a fresh active file whose first (and only) record is the
caller's record at level Info, not an Audit-level session separator. -/
theorem fileWriter_rotation_no_separator_cex :
    (FileWriter.Log env0 t0 1 "hello" (NewFileWriter "x" "a" 50)).files =
      [[⟨t0, 1, "hello"⟩], [sepRec env0 "a"]] ∧
    (FileWriter.Log env0 t0 1 "hello"
        (NewFileWriter "x" "a" 50)).files.head? = some [⟨t0, 1, "hello"⟩] ∧
    (⟨t0, 1, "hello"⟩ : FileRec).level ≠ 2 := by
  decide

/-- C5 amended: when the post-rotation reopen fails, the pending record
is dropped and the writer merely reverts to the closed (nil handle)
state with a zero counter; a subsequent Log with a still-failing open
is a no-op, but a subsequent Log whose open succeeds re-enters the
lazy-open branch and starts writing again — the sink is not
permanently inert. -/
theorem fileWriter_reopen_failure_behavior (env : LogEnv) (t : GoTime) (level : Nat)
    (msg : String) (st : FWState) :
    (st.isOpen = true → env.reopenOk = false →
      st.fileSize + (msg.utf8ByteSize : Int) + 33 > st.maxFileSize →
      FileWriter.Log env t level msg st =
        { st with isOpen := false, fileSize := 0 }) ∧
    (st.isOpen = false → env.openOk = false →
      FileWriter.Log env t level msg st = st) ∧
    (st.isOpen = false → env.openOk = true →
      (FileWriter.Log env t level msg st).files.length > st.files.length) := by
  refine ⟨?_, ?_, ?_⟩
  · intro hopen hre htrig
    rw [FileWriter.Log_open env t level msg st hopen]
    unfold FileWriter.logBody
    simp [htrig, hre]
  · intro hclosed hopenfail
    unfold FileWriter.Log
    simp [hclosed, hopenfail]
  · intro hclosed hok
    unfold FileWriter.Log FileWriter.logBody FileWriter.writeFileLine
    simp only [hclosed, hok, Bool.false_eq_true, if_false, if_true]
    split_ifs
    all_goals simp [appendCurrent_length]
    all_goals omega

/-- C5 witness for the amended claim. -/
theorem fileWriter_reopen_failure_behavior_witness :
    (FileWriter.Log ⟨true, some 0, false, t0, 1⟩ t0 1 "A"
        { maxFileSize := 10, maxLogFiles := 3, filename := "a", isOpen := true,
          fileSize := 48, files := [[sepRec env0 "a"]] } =
      { maxFileSize := 10, maxLogFiles := 3, filename := "a", isOpen := false,
        fileSize := 0, files := [[sepRec env0 "a"]] }) ∧
    (FileWriter.Log ⟨false, some 0, true, t0, 1⟩ t0 1 "B"
        { maxFileSize := 10, maxLogFiles := 3, filename := "a", isOpen := false,
          fileSize := 0, files := [[sepRec env0 "a"]] } =
      { maxFileSize := 10, maxLogFiles := 3, filename := "a", isOpen := false,
        fileSize := 0, files := [[sepRec env0 "a"]] }) ∧
    (FileWriter.Log env0 t0 1 "B"
        { maxFileSize := 10, maxLogFiles := 3, filename := "a", isOpen := false,
          fileSize := 0, files := [[sepRec env0 "a"]] }).files.length > 1 :=
  ⟨(fileWriter_reopen_failure_behavior ⟨true, some 0, false, t0, 1⟩ t0 1 "A" _).1
      (by decide) (by decide) (by decide),
   (fileWriter_reopen_failure_behavior ⟨false, some 0, true, t0, 1⟩ t0 1 "B" _).2.1
      (by decide) (by decide),
   (fileWriter_reopen_failure_behavior env0 t0 1 "B"
      { maxFileSize := 10, maxLogFiles := 3, filename := "a", isOpen := false,
        fileSize := 0, files := [[sepRec env0 "a"]] }).2.2 (by decide) (by decide)⟩

/-- C5 counterexample: after a rotation whose reopen failed, the very
next Log call whose open succeeds writes bytes again — a 35-byte
record lands in a fresh file — so delivery is not permanently
disabled for the remainder of the process. -/
theorem fileWriter_degraded_writes_again_cex :
    (FileWriter.Log ⟨true, some 0, false, t0, 1⟩ t0 1 "A"
        (NewFileWriter "x" "a" 10)).isOpen = false ∧
    (FileWriter.Log env0 t0 1 "B"
        (FileWriter.Log ⟨true, some 0, false, t0, 1⟩ t0 1 "A"
          (NewFileWriter "x" "a" 10))).files.head? = some [⟨t0, 1, "B"⟩] ∧
    (FileWriter.Log env0 t0 1 "B"
        (FileWriter.Log ⟨true, some 0, false, t0, 1⟩ t0 1 "A"
          (NewFileWriter "x" "a" 10))).fileSize = 35 := by
  decide

/-- The rotation condition evaluated on the lazy-open path: initial
Stat size plus the session marker line plus the estimated pending
record against the configured maximum. -/
def openTrigger (env : LogEnv) (st : FWState) (msg : String) (sz : Nat) : Prop :=
  ((sz : Nat) : Int) + (lineLen env.now 2 (sepMsg st.filename env.pid) : Int) +
    (msg.utf8ByteSize : Int) + 33 > st.maxFileSize

instance (env : LogEnv) (st : FWState) (msg : String) (sz : Nat) :
    Decidable (openTrigger env st msg sz) := by
  unfold openTrigger; infer_instance

/-- C6: on a closed writer, a failed lazy open leaves the state
exactly unchanged (record silently dropped, nothing propagated); on a
successful open with a successful Stat, the existing size is taken as
the initial counter and the Audit-level start-of-session marker is
written before the caller's record, whatever the rotation check then
decides. -/
theorem fileWriter_lazy_open_behavior (env : LogEnv) (t : GoTime) (level : Nat)
    (msg : String) (st : FWState) (sz : Nat)
    (hclosed : st.isOpen = false) :
    (env.openOk = false → FileWriter.Log env t level msg st = st) ∧
    (env.openOk = true → env.statSize = some sz →
      (sepRec env st.filename).level = 2 ∧
      (¬openTrigger env st msg sz →
        (FileWriter.Log env t level msg st).files =
          [sepRec env st.filename, ⟨t, level, msg⟩] :: st.files ∧
        (FileWriter.Log env t level msg st).fileSize =
          (sz : Int) + (lineLen env.now 2 (sepMsg st.filename env.pid) : Int) +
            (lineLen t level msg : Int)) ∧
      (openTrigger env st msg sz →
        (env.reopenOk = true →
          (FileWriter.Log env t level msg st).files =
            [⟨t, level, msg⟩] :: [sepRec env st.filename] :: st.files) ∧
        (env.reopenOk = false →
          (FileWriter.Log env t level msg st).files =
            [sepRec env st.filename] :: st.files))) := by
  constructor
  · intro hopenfail
    unfold FileWriter.Log
    simp [hclosed, hopenfail]
  · intro hok hstat
    refine ⟨rfl, ?_, ?_⟩
    · intro htrig
      unfold openTrigger at htrig
      unfold FileWriter.Log FileWriter.logBody FileWriter.writeFileLine
      simp only [hclosed, hok, hstat, Bool.false_eq_true, if_false, if_true,
        Option.getD_some]
      simp [htrig, appendCurrent, sepRec]
    · intro htrig
      unfold openTrigger at htrig
      constructor
      · intro hre
        unfold FileWriter.Log FileWriter.logBody FileWriter.writeFileLine
        simp only [hclosed, hok, hstat, Bool.false_eq_true, if_false, if_true,
          Option.getD_some]
        simp [htrig, hre, appendCurrent, sepRec]
      · intro hre
        unfold FileWriter.Log FileWriter.logBody FileWriter.writeFileLine
        simp only [hclosed, hok, hstat, Bool.false_eq_true, if_false, if_true,
          Option.getD_some]
        simp [htrig, hre, appendCurrent, sepRec]

/-- C6 witness: a failed open drops the record and changes nothing; a
successful open on a 100-byte file writes the marker then the record. -/
theorem fileWriter_lazy_open_behavior_witness :
    (FileWriter.Log ⟨false, some 100, true, t0, 1⟩ t0 1 "x"
        (NewFileWriter "x" "a" 1000) = NewFileWriter "x" "a" 1000) ∧
    ((FileWriter.Log ⟨true, some 100, true, t0, 1⟩ t0 1 "x"
        (NewFileWriter "x" "a" 1000)).files =
      [sepRec ⟨true, some 100, true, t0, 1⟩ "a", ⟨t0, 1, "x"⟩] :: [] ∧
      (FileWriter.Log ⟨true, some 100, true, t0, 1⟩ t0 1 "x"
        (NewFileWriter "x" "a" 1000)).fileSize =
        (100 : Int) + (lineLen t0 2 (sepMsg "a" 1) : Int) + (lineLen t0 1 "x" : Int)) :=
  ⟨(fileWriter_lazy_open_behavior ⟨false, some 100, true, t0, 1⟩ t0 1 "x"
      (NewFileWriter "x" "a" 1000) 100 (by decide)).1 (by decide),
   ((fileWriter_lazy_open_behavior ⟨true, some 100, true, t0, 1⟩ t0 1 "x"
      (NewFileWriter "x" "a" 1000) 100 (by decide)).2 (by decide) (by decide)).2.1
      (by decide)⟩

/-! ## Fan-out composite: theorem -/

/-- C8: for arbitrary child behaviors, IsEnabled is the disjunction of
the children, and Log, Flush and Close each invoke both children —
the second child's call always runs on its own state, computed
independently of anything the first child did, and the composite's
I/O events are the first child's followed by the second child's. -/
theorem multiWriter_forwarding {σ₁ σ₂ ε : Type} (mw : MultiWriter σ₁ σ₂ ε)
    (st : σ₁ × σ₂) (t : GoTime) (level : Int) (msg : String) :
    MultiWriter.IsEnabled mw st level =
      (mw.first.isEnabled st.1 level || mw.second.isEnabled st.2 level) ∧
    MultiWriter.Log mw st t level msg =
      (((mw.first.log st.1 t level msg).1, (mw.second.log st.2 t level msg).1),
        (mw.first.log st.1 t level msg).2 ++ (mw.second.log st.2 t level msg).2) ∧
    MultiWriter.Flush mw st =
      (((mw.first.flush st.1).1, (mw.second.flush st.2).1),
        (mw.first.flush st.1).2 ++ (mw.second.flush st.2).2) ∧
    MultiWriter.Close mw st =
      (((mw.first.close st.1).1, (mw.second.close st.2).1),
        (mw.first.close st.1).2 ++ (mw.second.close st.2).2) :=
  ⟨rfl, rfl, rfl, rfl⟩

/-! ## Console renderer: theorem -/

/-- C9: for any level at or beyond the named range (level ≥ 5) the
console writer never indexes levelNames out of range — the call cannot
panic — and, when the level passes the minimum-level filter, the
record is printed with an empty level tag. -/
theorem consoleWriter_high_level_safe (cw : ConsoleWriter) (t : GoTime)
    (level : Int) (msg : String) (h5 : 5 ≤ level) :
    ConsoleWriter.Log cw t level msg ≠ ConsoleOut.panicked ∧
    (cw.minLevel ≤ level →
      ConsoleWriter.Log cw t level msg =
        ConsoleOut.printed (consoleRender (if cw.isTerminal then 167 else 0) t "" msg)) := by
  have hlen : ¬ level < (levelNames.length : Int) := by
    simp only [levelNames, List.length]
    omega
  constructor
  · unfold ConsoleWriter.Log
    split_ifs <;> simp_all
  · intro hmin
    have hnf : ¬ level < cw.minLevel := not_lt.mpr hmin
    unfold ConsoleWriter.Log
    simp only [hnf, if_false, hlen]
    have hc : (if cw.isTerminal then
        (if level ≥ Error then 167 else if level ≥ Warn then 173 else 0) else 0) =
        (if cw.isTerminal then 167 else 0) := by
      have : level ≥ Error := by unfold Error; omega
      simp [this]
    simp [hc]

/-- C9 witness at level 5 (one past Error) on a terminal. -/
theorem consoleWriter_high_level_safe_witness :
    ConsoleWriter.Log ⟨0, true⟩ t0 5 "m" ≠ ConsoleOut.panicked ∧
    ((⟨0, true⟩ : ConsoleWriter).minLevel ≤ 5 →
      ConsoleWriter.Log ⟨0, true⟩ t0 5 "m" =
        ConsoleOut.printed (consoleRender
          (if (⟨0, true⟩ : ConsoleWriter).isTerminal then 167 else 0) t0 "" "m")) :=
  consoleWriter_high_level_safe ⟨0, true⟩ t0 5 "m" (by decide)

/-! ## Constructor normalization: theorem -/

/-- C10: NewFileWriter derives the file name from the executable path
(base name, then a trailing ".bin" and then a trailing ".app" suffix
trimmed) only when the given name is empty; replaces a maxSize of
exactly 0 by 1e9 while keeping any other value including negative ones
(under which every delivery on an open writer rotates first); and pins
the log-file count at 3. -/
theorem newFileWriter_normalization (argv0 fn : String) (m : Int) :
    (NewFileWriter argv0 "" m).filename =
      goTrimSuffix (goTrimSuffix (pathBase argv0) ".bin") ".app" ∧
    (fn ≠ "" → (NewFileWriter argv0 fn m).filename = fn) ∧
    (NewFileWriter argv0 fn 0).maxFileSize = 1000000000 ∧
    (m ≠ 0 → (NewFileWriter argv0 fn m).maxFileSize = m) ∧
    (NewFileWriter argv0 fn m).maxLogFiles = 3 ∧
    (m < 0 → ∀ (env : LogEnv) (t : GoTime) (level : Nat) (msg : String) (st : FWState),
      st.isOpen = true → st.maxFileSize = m → 0 ≤ st.fileSize → env.reopenOk = true →
      (FileWriter.Log env t level msg st).files = [⟨t, level, msg⟩] :: st.files) := by
  refine ⟨by simp [NewFileWriter], fun h => by simp [NewFileWriter, h],
    by simp [NewFileWriter], fun h => by simp [NewFileWriter, h],
    by simp [NewFileWriter], ?_⟩
  intro hm env t level msg st hopen hmax hfs hre
  have htrig : st.fileSize + (msg.utf8ByteSize : Int) + 33 > st.maxFileSize := by
    rw [hmax]
    have : (0 : Int) ≤ (msg.utf8ByteSize : Int) := Int.ofNat_nonneg _
    omega
  rw [FileWriter.Log_open env t level msg st hopen]
  unfold FileWriter.logBody FileWriter.writeFileLine
  simp [htrig, hre, hopen, appendCurrent]

/-- C10 witness: a ".bin" executable path, a negative maxSize and an
open state on which the next delivery rotates. -/
theorem newFileWriter_normalization_witness :
    (NewFileWriter "/usr/local/bin/server.bin" "" (-1)).filename = "server" ∧
    (NewFileWriter "/usr/local/bin/server.bin" "svc" 0).maxFileSize = 1000000000 ∧
    (NewFileWriter "/usr/local/bin/server.bin" "svc" (-1)).maxFileSize = -1 ∧
    (NewFileWriter "/usr/local/bin/server.bin" "svc" (-1)).maxLogFiles = 3 ∧
    (FileWriter.Log env0 t0 1 "x"
        { maxFileSize := -1, maxLogFiles := 3, filename := "svc", isOpen := true,
          fileSize := 0, files := [[sepRec env0 "svc"]] }).files =
      [⟨t0, 1, "x"⟩] :: [[sepRec env0 "svc"]] := by
  have h := newFileWriter_normalization "/usr/local/bin/server.bin" "svc" (-1)
  refine ⟨?_, (newFileWriter_normalization "/usr/local/bin/server.bin" "svc" 0).2.2.1,
    h.2.2.2.1 (by decide), h.2.2.2.2.1, ?_⟩
  · have h0 := (newFileWriter_normalization "/usr/local/bin/server.bin" "svc" (-1)).1
    rw [h0]
    decide
  · exact h.2.2.2.2.2 (by decide) env0 t0 1 "x" _ (by decide) (by decide)
      (by decide) (by decide)
